import Mathlib

/-!
Verification of the streaming-ingestion pipeline of the attack-map frontend
(the `useWebSocket` hook): message validation, the rolling attack buffer,
statistics aggregation, message dispatch, and the reconnection state machine.

Source: `src/hooks/useWebSocket.ts` (the unnamed hook file of the repository).

Modelling conventions (shallow embedding of the JavaScript/TypeScript code):
* JSON-decoded JavaScript values are modelled by the inductive type `JSVal`.
  JavaScript numbers are modelled by `JSNum`: a finite rational, `NaN`,
  `Infinity` or `-Infinity`; `typeof x === 'number'` is true for all of them.
* `typeof x === 'object'` is true for `null`, plain objects and arrays,
  exactly as in JavaScript.
* Property access `x.f` is the total function `getField` returning
  `undefined` on primitives and absent fields (the source only dereferences
  after truthiness guards, so the cases where JavaScript would throw are
  never reached on the guarded paths).
* Object string-key counting (`obj[k] = (obj[k] || 0) + 1` followed by
  `Object.entries`) stores own keys in an insertion-ordered association
  list, and `Object.entries` enumeration follows the ECMAScript own-key
  order: own keys that are canonical array indices come first in ascending
  numeric order, followed by the remaining own string keys in insertion
  order. Writing `obj["__proto__"]` on a plain object invokes the
  prototype accessor and never creates an own key, so the count map skips
  that key. A key colliding with an inherited `Object.prototype` member
  would make the `obj[k] || 0` read return the inherited member and store
  a non-numeric value; such keys are outside the model and excluded by
  hypothesis where grouping order is asserted.
* `Array.prototype.sort` with the comparator `(a, b) => b.count - a.count`
  is a stable sort (ES2019); stable sorting under a total preorder has a
  unique result, modelled here by a stable insertion sort.
* Wall-clock times (`Date.getTime()`) are integer milliseconds.
-/

/-- JavaScript number: finite value, NaN, or a signed infinity.
`typeof` reports `number` for every constructor. -/
inductive JSNum where
  | finite (q : ℚ)
  | nan
  | inf
  | negInf
deriving DecidableEq

/-- JSON-decodable JavaScript value, plus `undefined` (the result of reading
an absent property). Objects are insertion-ordered field lists. -/
inductive JSVal where
  | vundefined
  | vnull
  | vbool (b : Bool)
  | vnum (n : JSNum)
  | vstr (s : String)
  | varr (elems : List JSVal)
  | vobj (fields : List (String × JSVal))

namespace JSVal

/-- JavaScript truthiness: `false`, `0`, `NaN`, the empty string, `null`
and `undefined` are falsy; every object and array is truthy. -/
def truthy : JSVal → Bool
  | vundefined => false
  | vnull => false
  | vbool b => b
  | vnum (JSNum.finite q) => decide (q ≠ 0)
  | vnum JSNum.nan => false
  | vnum JSNum.inf => true
  | vnum JSNum.negInf => true
  | vstr s => decide (s ≠ "")
  | varr _ => true
  | vobj _ => true

/-- Test for `typeof x === 'object'`; in JavaScript this holds for `null`,
plain objects and arrays. -/
def typeofObject : JSVal → Bool
  | vnull => true
  | vobj _ => true
  | varr _ => true
  | _ => false

/-- Test for `typeof x === 'number'`; holds for every `JSNum`, NaN and the
infinities included. -/
def typeofNumber : JSVal → Bool
  | vnum _ => true
  | _ => false

/-- Test for `Array.isArray`. -/
def isArray : JSVal → Bool
  | varr _ => true
  | _ => false

/-- Property read `x[k]`: the field value on an object that has the field,
`undefined` otherwise (absent field, array, or primitive). -/
def getField : JSVal → String → JSVal
  | vobj fields, k =>
      match fields.find? (fun p => p.1 == k) with
      | some p => p.2
      | none => vundefined
  | _, _ => vundefined

/-- JavaScript ToString coercion as used when a value becomes an object key.
Exact double formatting is outside the model; it agrees with JavaScript on
strings, `undefined`, `null`, booleans, NaN and the infinities, which are
the only key shapes the claims exercise. -/
def jsKeyString : JSVal → String
  | vstr s => s
  | vundefined => "undefined"
  | vnull => "null"
  | vbool true => "true"
  | vbool false => "false"
  | vnum (JSNum.finite q) => toString q
  | vnum JSNum.nan => "NaN"
  | vnum JSNum.inf => "Infinity"
  | vnum JSNum.negInf => "-Infinity"
  | vobj _ => "[object Object]"
  | varr _ => "[array]"

end JSVal

open JSVal

/-- Validation filter applied to each candidate of an array-shaped message,
transcribed from the source:
`attack && typeof attack === 'object' && attack.src_geo && attack.dst_geo`
and `typeof` checks that the four coordinates are numbers. -/
def isValidAttack (attack : JSVal) : Bool :=
  attack.truthy &&
  attack.typeofObject &&
  (attack.getField "src_geo").truthy &&
  (attack.getField "dst_geo").truthy &&
  ((attack.getField "src_geo").getField "lon").typeofNumber &&
  ((attack.getField "src_geo").getField "lat").typeofNumber &&
  ((attack.getField "dst_geo").getField "lon").typeofNumber &&
  ((attack.getField "dst_geo").getField "lat").typeofNumber

/-- Rolling-buffer capacity (`slice(-1000)` bound in the source). -/
def capacity : ℕ := 1000

/-- Suffix of the last `n` elements, the meaning of `slice(-n)`. -/
def takeLast (n : ℕ) (l : List JSVal) : List JSVal :=
  l.drop (l.length - n)

/-- Ingestion append, transcribed from the source: concatenate the validated
batch, then truncate to the last `capacity` elements when the bound is
exceeded. -/
def bufferAppend (buf batch : List JSVal) : List JSVal :=
  let merged := buf ++ batch
  if merged.length > capacity then takeLast capacity merged else merged

/-- Source-country grouping key of `calculateStats`:
`attack.src_geo?.country || 'Unknown'` used as an object key. -/
def srcCountryKey (attack : JSVal) : String :=
  let c := (attack.getField "src_geo").getField "country"
  if c.truthy then c.jsKeyString else "Unknown"

/-- Target-country grouping key of `calculateStats`:
`attack.dst_geo?.country || 'Unknown'` used as an object key. -/
def dstCountryKey (attack : JSVal) : String :=
  let c := (attack.getField "dst_geo").getField "country"
  if c.truthy then c.jsKeyString else "Unknown"

/-- Attack-type grouping key of `calculateStats`: `attack.type` used as an
object key, so `undefined` is coerced to the string key `undefined`. -/
def typeKey (attack : JSVal) : String :=
  (attack.getField "type").jsKeyString

/-- Increment of one key in the own-key count map
(`obj[k] = (obj[k] || 0) + 1`): assigning `obj["__proto__"]` invokes the
prototype accessor and never creates or updates an own key; otherwise an
existing key keeps its creation position and a new key is appended at the
end. -/
def bump (m : List (String × ℕ)) (k : String) : List (String × ℕ) :=
  if k == "__proto__" then m
  else if m.any (fun p => p.1 == k) then
    m.map (fun p => if p.1 == k then (p.1, p.2 + 1) else p)
  else
    m ++ [(k, 1)]

/-- Insertion-ordered per-key counts of a buffer under a grouping key, the
meaning of the `forEach` counting loop followed by `Object.entries`. -/
def groupCounts (key : JSVal → String) (l : List JSVal) : List (String × ℕ) :=
  l.foldl (fun m a => bump m (key a)) []

/-- Stable descending insertion by count: the new entry goes after every
entry with a strictly larger count and before the first entry whose count
is not larger, so earlier entries win ties. -/
def insertDesc (p : String × ℕ) : List (String × ℕ) → List (String × ℕ)
  | [] => [p]
  | q :: rest => if q.2 > p.2 then q :: insertDesc p rest else p :: q :: rest

/-- Stable sort descending by count, the meaning of the stable
`sort((a, b) => b.count - a.count)` of the source. -/
def sortDesc (l : List (String × ℕ)) : List (String × ℕ) :=
  l.foldr insertDesc []

/-- Numeric value of a decimal digit string, used to order array-index
keys. -/
def decimalVal (s : String) : ℕ :=
  s.toList.foldl (fun a c => 10 * a + (c.toNat - 48)) 0

/-- Test whether a string is a canonical array-index key in the ECMAScript
sense: a canonical decimal numeral (no leading zero except `0` itself)
whose value is below `2 ^ 32 - 1`. `Object.entries` enumerates such own
keys first, in ascending numeric order. -/
def isArrayIndexKey (s : String) : Bool :=
  match s.toList with
  | [] => false
  | c :: rest =>
      (c :: rest).all Char.isDigit &&
      (rest.isEmpty || !(c == '0')) &&
      decide (decimalVal s < 2 ^ 32 - 1)

/-- Insertion into a list of entries kept ascending by the numeric value
of the key. Array-index keys are distinct, so ties cannot occur. -/
def insertIdx (p : String × ℕ) :
    List (String × ℕ) → List (String × ℕ)
  | [] => [p]
  | q :: rest =>
      if decimalVal q.1 ≤ decimalVal p.1 then q :: insertIdx p rest
      else p :: q :: rest

/-- Sort entries ascending by the numeric value of their keys. -/
def sortIdx (l : List (String × ℕ)) : List (String × ℕ) :=
  l.foldr insertIdx []

/-- Meaning of `Object.entries` on the own-key count map: array-index keys
first in ascending numeric order, then the remaining string keys in
insertion (creation) order. -/
def jsEntries (m : List (String × ℕ)) : List (String × ℕ) :=
  sortIdx (m.filter (fun p => isArrayIndexKey p.1)) ++
    m.filter (fun p => !(isArrayIndexKey p.1))

/-- Insertion into a key list kept ascending by numeric value, the
key-level counterpart of `insertIdx`. -/
def insertKeyAsc (k : String) : List String → List String
  | [] => [k]
  | q :: rest =>
      if decimalVal q ≤ decimalVal k then q :: insertKeyAsc k rest
      else k :: q :: rest

/-- Sort keys ascending by numeric value, the key-level counterpart of
`sortIdx`. -/
def sortKeysAsc (l : List String) : List String :=
  l.foldr insertKeyAsc []

/-- Names of the inherited `Object.prototype` members of a plain object
other than the `__proto__` accessor. Using such a string as a count key
would make the `obj[k] || 0` read return the inherited member and store a
non-numeric value; the grouping-order statement excludes these keys by
hypothesis (they are not country names or realistic type labels). -/
def inheritedObjectKey (k : String) : Bool :=
  ["constructor", "hasOwnProperty", "isPrototypeOf",
   "propertyIsEnumerable", "toLocaleString", "toString", "valueOf",
   "__defineGetter__", "__defineSetter__", "__lookupGetter__",
   "__lookupSetter__"].contains k

/-- Ranked group list for one grouping dimension of `calculateStats`: the
enumerated entries of the count object, stable-sorted descending by
count. -/
def rankedGroups (key : JSVal → String) (l : List JSVal) :
    List (String × ℕ) :=
  sortDesc (jsEntries (groupCounts key l))

/-- Result record of `calculateStats`. -/
structure Stats where
  totalAttacks : ℕ
  attacksPerMinute : ℚ
  topSourceCountries : List (String × ℕ)
  topTargetCountries : List (String × ℕ)
  attackTypes : List (String × ℕ)
deriving DecidableEq

/-- Statistics computation transcribed from `calculateStats`: `now` and
`start` are millisecond clock readings (`new Date().getTime()` and the
session-start ref), `timeDiff` is elapsed minutes, and the rate falls back
to `0` unless `timeDiff` is strictly positive. -/
def calculateStats (now start : ℤ) (allAttacks : List JSVal) : Stats :=
  let timeDiff : ℚ := ((now - start : ℤ) : ℚ) / (1000 * 60)
  { totalAttacks := allAttacks.length
    attacksPerMinute :=
      if timeDiff > 0 then (allAttacks.length : ℚ) / timeDiff else 0
    topSourceCountries := rankedGroups srcCountryKey allAttacks
    topTargetCountries := rankedGroups dstCountryKey allAttacks
    attackTypes := rankedGroups typeKey allAttacks }

/-- Observable state of the hook: React state cells and the mutable refs
that the handlers read and write. `pendingTimers` counts scheduled and not
yet fired or cancelled reconnection timeouts. -/
structure HookState where
  allAttacks : List JSVal
  attacks : List JSVal
  lastUpdate : Option ℤ
  error : Option String
  isConnected : Bool
  todayTotal : Option JSNum
  todayByCountry : Option (List JSVal)
  reconnectAttempts : ℕ
  pendingTimers : ℕ

/-- State of the hook right after mounting, before any handler has run. -/
def initState : HookState :=
  { allAttacks := []
    attacks := []
    lastUpdate := none
    error := none
    isConnected := false
    todayTotal := none
    todayByCountry := none
    reconnectAttempts := 0
    pendingTimers := 0 }

/-- Inbound message as seen by the `onmessage` handler: `emptyData` models
a falsy `event.data` (early return), `malformed` a payload on which
`JSON.parse` throws, and `parsed` a successfully decoded value. -/
inductive WSMessage where
  | emptyData
  | malformed
  | parsed (v : JSVal)

/-- Strict string-equality test `x === 'statsToday'` on a field value. -/
def isStatsTodayTag : JSVal → Bool
  | JSVal.vstr s => s == "statsToday"
  | _ => false

/-- Array payload of a value, defined under an `isArray` guard. -/
def arrayElems : JSVal → List JSVal
  | JSVal.varr elems => elems
  | _ => []

/-- Message handler transcribed from the `onmessage` callback: an array
payload is validated and the valid part (if non-empty) appended to the
rolling buffer; a `statsToday`-tagged object replaces the today overlay;
any other shape is ignored; a decode failure sets the error state. -/
def processMessage (now : ℤ) (st : HookState) (msg : WSMessage) : HookState :=
  match msg with
  | WSMessage.emptyData => st
  | WSMessage.malformed => { st with error := some "Error parsing attack data" }
  | WSMessage.parsed parsed =>
    if parsed.isArray then
      let validAttacks := (arrayElems parsed).filter isValidAttack
      if validAttacks.length > 0 then
        { st with
          allAttacks := bufferAppend st.allAttacks validAttacks
          attacks := validAttacks
          lastUpdate := some now }
      else st
    else if parsed.truthy && parsed.typeofObject &&
        isStatsTodayTag (parsed.getField "type") then
      let payload :=
        if (parsed.getField "payload").truthy then parsed.getField "payload"
        else JSVal.vobj []
      { st with
        todayTotal := some
          (match payload.getField "total" with
            | JSVal.vnum n => n
            | _ => JSNum.finite 0)
        todayByCountry := some
          (if (payload.getField "countries").isArray then
            arrayElems (payload.getField "countries")
          else []) }
    else st

/-- Default of the `maxReconnectAttempts` option. -/
def maxReconnectAttempts : ℕ := 10

/-- Transcription of the `onclose` handler: mark disconnected, then either
schedule one reconnection timeout and increment the retry counter (counter
below the maximum) or set the exhaustion error (counter at the maximum). -/
def onClose (maxAttempts : ℕ) (st : HookState) : HookState :=
  if st.reconnectAttempts < maxAttempts then
    { st with
      isConnected := false
      reconnectAttempts := st.reconnectAttempts + 1
      pendingTimers := st.pendingTimers + 1 }
  else
    { st with
      isConnected := false
      error := some "Max reconnection attempts reached" }

/-- Transcription of the `onopen` handler: mark connected, reset the retry
counter, clear the error. -/
def onOpen (st : HookState) : HookState :=
  { st with isConnected := true, reconnectAttempts := 0, error := none }

/-- Entry of `connect()`: clears the error and creates a fresh transport
(the transport object itself is implicit in the model). -/
def connectStep (st : HookState) : HookState :=
  { st with error := none }

/-- Firing of a scheduled reconnection timeout: the timer is consumed and
its callback runs `connect()`. -/
def timerFire (st : HookState) : HookState :=
  connectStep { st with pendingTimers := st.pendingTimers - 1 }

/-- Transcription of the effect cleanup: `clearTimeout` cancels the stored
pending timeout and `ws.close()` is called on the live transport. The
transport reacts to that close asynchronously, so the cleanup itself only
cancels the timer; the disposal-induced close event is modelled as a
subsequent `onClose` step, because the handler is still attached. -/
def cleanup (st : HookState) : HookState :=
  { st with pendingTimers := 0 }


/-- Spec-side acceptance predicate transcribed from the specification
wording for the validator: a non-null object containing a source-point and
a destination-point record whose four coordinate fields are finite numeric
values. Used to compare the specification against the implemented
filter. -/
def finiteCoordSpec (v : JSVal) : Prop :=
  (∃ fields, v = JSVal.vobj fields) ∧
  (∃ sg, v.getField "src_geo" = JSVal.vobj sg) ∧
  (∃ dg, v.getField "dst_geo" = JSVal.vobj dg) ∧
  (∃ q : ℚ, (v.getField "src_geo").getField "lon" =
    JSVal.vnum (JSNum.finite q)) ∧
  (∃ q : ℚ, (v.getField "src_geo").getField "lat" =
    JSVal.vnum (JSNum.finite q)) ∧
  (∃ q : ℚ, (v.getField "dst_geo").getField "lon" =
    JSVal.vnum (JSNum.finite q)) ∧
  (∃ q : ℚ, (v.getField "dst_geo").getField "lat" =
    JSVal.vnum (JSNum.finite q))

/-- Structural acceptance predicate matching what the filter really checks:
same shape as `finiteCoordSpec` except that the four coordinates only have
to be of JavaScript number type, NaN and the infinities included. -/
def numberCoordSpec (v : JSVal) : Prop :=
  (∃ fields, v = JSVal.vobj fields) ∧
  (∃ sg, v.getField "src_geo" = JSVal.vobj sg) ∧
  (∃ dg, v.getField "dst_geo" = JSVal.vobj dg) ∧
  (∃ n, (v.getField "src_geo").getField "lon" = JSVal.vnum n) ∧
  (∃ n, (v.getField "src_geo").getField "lat" = JSVal.vnum n) ∧
  (∃ n, (v.getField "dst_geo").getField "lon" = JSVal.vnum n) ∧
  (∃ n, (v.getField "dst_geo").getField "lat" = JSVal.vnum n)

/-- Geo-point object with two numeric coordinates, used in concrete test
events. -/
def geoPoint (lon lat : JSNum) : JSVal :=
  JSVal.vobj [("lon", JSVal.vnum lon), ("lat", JSVal.vnum lat)]

/-- Concrete candidate event whose source longitude is NaN and whose other
three coordinates are finite. -/
def nanAttackEv : JSVal :=
  JSVal.vobj
    [("src_geo", geoPoint JSNum.nan (JSNum.finite 0)),
     ("dst_geo", geoPoint (JSNum.finite 1) (JSNum.finite 2)),
     ("type", JSVal.vstr "ddos")]

/-- Concrete candidate event with valid finite coordinates and no `type`,
`id` or `timestamp` field. -/
def noTypeAttackEv : JSVal :=
  JSVal.vobj
    [("src_geo", geoPoint (JSNum.finite 2) (JSNum.finite 1)),
     ("dst_geo", geoPoint (JSNum.finite 4) (JSNum.finite 3))]

/-- Concrete aggregate message from the specification example:
`type statsToday`, payload with total 42 and one country row. -/
def statsTodayExample : JSVal :=
  JSVal.vobj
    [("type", JSVal.vstr "statsToday"),
     ("payload", JSVal.vobj
        [("total", JSVal.vnum (JSNum.finite 42)),
         ("countries", JSVal.varr
            [JSVal.vobj [("country", JSVal.vstr "A"),
                         ("count", JSVal.vnum (JSNum.finite 42))]])])]

/-- Deduplication keeping the first occurrence of each key, in order of
first occurrence: the reference meaning of first-seen-group order. -/
def dedupFirst : List String → List String
  | [] => []
  | x :: xs => x :: (dedupFirst xs).filter (fun y => !(y == x))

/-- Left fold collecting keys in order of first occurrence, mirroring how
the counting loop grows the key set of its object. -/
def seenKeys (acc : List String) : List String → List String
  | [] => acc
  | k :: ks =>
      seenKeys (if acc.any (fun y => y == k) then acc else acc ++ [k]) ks

/-- Shape asserted by the claim wording for one ranked group list `L`
over buffer `attacks`: descending by count; entries of each fixed count
appear exactly as in the insertion-ordered count map; and the count-map
keys are the buffer keys in order of first occurrence (first-seen-group
tie order). -/
def rankedShape (key : JSVal → String) (attacks : List JSVal)
    (L : List (String × ℕ)) : Prop :=
  L.Pairwise (fun a b => b.2 ≤ a.2) ∧
  (∀ c : ℕ, L.filter (fun q => q.2 == c) =
    (groupCounts key attacks).filter (fun q => q.2 == c)) ∧
  (groupCounts key attacks).map Prod.fst = dedupFirst (attacks.map key)

/-- Distinct group keys of a buffer in order of first occurrence,
restricted to the keys that become own keys of the count object (the
`__proto__` write never creates one). -/
def firstSeenKeys (key : JSVal → String) (attacks : List JSVal) :
    List String :=
  dedupFirst ((attacks.map key).filter (fun k => !(k == "__proto__")))

/-- Shape the code actually produces for one ranked group list `L` over
buffer `attacks`: descending by count; entries of each fixed count appear
exactly as in the enumerated count object; and the enumeration lists the
array-index keys first in ascending numeric order, followed by the
remaining keys in order of first occurrence in the buffer. -/
def enumShape (key : JSVal → String) (attacks : List JSVal)
    (L : List (String × ℕ)) : Prop :=
  L.Pairwise (fun a b => b.2 ≤ a.2) ∧
  (∀ c : ℕ, L.filter (fun q => q.2 == c) =
    (jsEntries (groupCounts key attacks)).filter (fun q => q.2 == c)) ∧
  (jsEntries (groupCounts key attacks)).map Prod.fst =
    sortKeysAsc ((firstSeenKeys key attacks).filter isArrayIndexKey) ++
      (firstSeenKeys key attacks).filter (fun k => !(isArrayIndexKey k))

/-- Concrete valid event whose attack type is the given string, used to
exercise numeric-string type labels. -/
def idxTypeEv (t : String) : JSVal :=
  JSVal.vobj
    [("src_geo", geoPoint (JSNum.finite 0) (JSNum.finite 0)),
     ("dst_geo", geoPoint (JSNum.finite 0) (JSNum.finite 0)),
     ("type", JSVal.vstr t)]

/-- Reconnection cycle after a non-final closure: the scheduled timeout
fires, `connect()` runs, and the fresh transport closes again. -/
def failCycle (st : HookState) : HookState :=
  onClose maxReconnectAttempts (timerFire st)

/-- State after the initial `connect()` and `n` consecutive transport
closures, each non-final closure being followed by its scheduled
reconnection attempt which also fails to stay open. -/
def afterCloses : ℕ → HookState
  | 0 => connectStep initState
  | n + 1 => failCycle^[n] (onClose maxReconnectAttempts (connectStep initState))

-- Helper lemmas about the rolling buffer.

theorem length_takeLast (n : ℕ) (l : List JSVal) :
    (takeLast n l).length = min n l.length := by
  simp [takeLast]
  omega

theorem bufferAppend_eq_takeLast (buf batch : List JSVal) :
    bufferAppend buf batch = takeLast capacity (buf ++ batch) := by
  unfold bufferAppend
  dsimp only
  split
  · rfl
  · next h =>
    unfold takeLast
    have h0 : (buf ++ batch).length - capacity = 0 := by omega
    rw [h0, List.drop_zero]

theorem takeLast_append_of_le (n : ℕ) (p z : List JSVal) (h : n ≤ z.length) :
    takeLast n (p ++ z) = takeLast n z := by
  unfold takeLast
  have hlen : (p ++ z).length - n = p.length + (z.length - n) := by
    simp only [List.length_append]; omega
  rw [hlen, List.drop_append]

theorem takeLast_takeLast_append (n : ℕ) (x y : List JSVal) :
    takeLast n (takeLast n x ++ y) = takeLast n (x ++ y) := by
  by_cases hx : x.length ≤ n
  · have : x.length - n = 0 := by omega
    simp [takeLast, this]
  · push_neg at hx
    have hsplit : x.take (x.length - n) ++ takeLast n x = x :=
      List.take_append_drop _ x
    have hlen : (takeLast n x).length = n := by
      rw [length_takeLast]; omega
    calc takeLast n (takeLast n x ++ y)
        = takeLast n (x.take (x.length - n) ++ (takeLast n x ++ y)) := by
          have hle : n ≤ (takeLast n x ++ y).length := by
            rw [List.length_append, hlen]; omega
          exact (takeLast_append_of_le n (x.take (x.length - n)) _ hle).symm
      _ = takeLast n (x ++ y) := by
          rw [← List.append_assoc, hsplit]

theorem foldl_bufferAppend (bs : List (List JSVal)) (a : List JSVal) :
    bs.foldl bufferAppend (takeLast capacity a) =
      takeLast capacity (a ++ bs.flatten) := by
  induction bs generalizing a with
  | nil => simp
  | cons b bs ih =>
      simp only [List.foldl_cons, List.flatten_cons]
      rw [bufferAppend_eq_takeLast, takeLast_takeLast_append,
        ← List.append_assoc]
      exact ih (a ++ b)

-- Projection helpers for the statistics record.

theorem attacksPerMinute_eq (now start : ℤ) (l : List JSVal) :
    (calculateStats now start l).attacksPerMinute =
      if ((now - start : ℤ) : ℚ) / (1000 * 60) > 0 then
        (l.length : ℚ) / (((now - start : ℤ) : ℚ) / (1000 * 60))
      else 0 := rfl

theorem topSourceCountries_eq (now start : ℤ) (l : List JSVal) :
    (calculateStats now start l).topSourceCountries =
      rankedGroups srcCountryKey l := rfl

theorem topTargetCountries_eq (now start : ℤ) (l : List JSVal) :
    (calculateStats now start l).topTargetCountries =
      rankedGroups dstCountryKey l := rfl

theorem attackTypes_eq (now start : ℤ) (l : List JSVal) :
    (calculateStats now start l).attackTypes =
      rankedGroups typeKey l := rfl

/-- C1: for every sequence of validated batches fed through the ingestion
append, the rolling buffer stays within the capacity 1000 and its contents
are exactly the most recently appended events in arrival order — the
suffix of the concatenation of all batches, eviction removing only the
oldest elements from the front. -/
theorem buffer_bounded_most_recent (batches : List (List JSVal)) :
    (batches.foldl bufferAppend []).length ≤ capacity ∧
    batches.foldl bufferAppend [] =
      batches.flatten.drop (batches.flatten.length - capacity) ∧
    batches.foldl bufferAppend [] <:+ batches.flatten := by
  have h0 : takeLast capacity ([] : List JSVal) = [] := by
    simp [takeLast]
  have h : batches.foldl bufferAppend [] =
      takeLast capacity batches.flatten := by
    have h1 := foldl_bufferAppend batches []
    rw [h0] at h1
    simpa using h1
  refine ⟨?_, ?_, ?_⟩
  · rw [h, length_takeLast]; omega
  · rw [h]; rfl
  · rw [h]; exact List.drop_suffix _ _

/-- C3: the computed events-per-minute rate is 0 when the elapsed time
since observation start is not positive; otherwise it is the event count
divided by the elapsed minutes; and it is never negative (in particular no
division by a non-positive elapsed time is performed). -/
theorem rate_guarded (now start : ℤ) (l : List JSVal) :
    (now ≤ start → (calculateStats now start l).attacksPerMinute = 0) ∧
    (start < now →
      (calculateStats now start l).attacksPerMinute =
        (l.length : ℚ) / (((now - start : ℤ) : ℚ) / (1000 * 60))) ∧
    0 ≤ (calculateStats now start l).attacksPerMinute := by
  have hdenom : (0 : ℚ) < 1000 * 60 := by norm_num
  have hiff : (((now - start : ℤ) : ℚ) / (1000 * 60) > 0) ↔ start < now := by
    rw [gt_iff_lt, lt_div_iff₀ hdenom, zero_mul, Int.cast_pos, sub_pos]
  refine ⟨?_, ?_, ?_⟩
  · intro h
    rw [attacksPerMinute_eq, if_neg ((not_congr hiff).mpr (not_lt.mpr h))]
  · intro h
    rw [attacksPerMinute_eq, if_pos (hiff.mpr h)]
  · rw [attacksPerMinute_eq]
    split
    · next hpos => exact div_nonneg (by positivity) (le_of_lt hpos)
    · exact le_refl 0

/-- Witness for C3: at one elapsed minute a two-event buffer yields rate
2, and at zero elapsed time the rate is 0. -/
theorem rate_guarded_witness :
    (calculateStats 0 0 [JSVal.vnull]).attacksPerMinute = 0 ∧
    (calculateStats 60000 0 [JSVal.vnull, JSVal.vnull]).attacksPerMinute =
      (([JSVal.vnull, JSVal.vnull].length : ℚ)) /
        (((60000 - 0 : ℤ) : ℚ) / (1000 * 60)) :=
  ⟨(rate_guarded 0 0 [JSVal.vnull]).1 (by norm_num),
   (rate_guarded 60000 0 [JSVal.vnull, JSVal.vnull]).2.1 (by norm_num)⟩

/-- C7 counterexample: a message whose payload fails JSON decoding is not
silent to the end user — processing it sets the user-visible error state,
which was previously clear. -/
theorem malformed_sets_user_error :
    initState.error = none ∧
    (processMessage 0 initState WSMessage.malformed).error =
      some "Error parsing attack data" :=
  ⟨rfl, rfl⟩

/-- C7 amended: a message whose payload fails JSON decoding is dropped and
the connection stays open — the whole state is unchanged except that the
user-visible error state is set to the parse-error text. -/
theorem malformed_message_effect (now : ℤ) (st : HookState) :
    processMessage now st WSMessage.malformed =
      { st with error := some "Error parsing attack data" } :=
  rfl

/-- C8: an array-shaped message in which no candidate passes validation
changes nothing: buffer, attacks list, stats inputs, timestamps and error
are exactly as before. -/
theorem allInvalid_batch_no_change (now : ℤ) (st : HookState)
    (arr : List JSVal) (h : arr.filter isValidAttack = []) :
    processMessage now st (WSMessage.parsed (JSVal.varr arr)) = st := by
  unfold processMessage
  simp only [JSVal.isArray, arrayElems, h]
  rfl

/-- Witness for C8: a batch holding one invalid candidate (a bare null)
leaves the freshly mounted state untouched. -/
theorem allInvalid_batch_no_change_witness :
    processMessage 0 initState
      (WSMessage.parsed (JSVal.varr [JSVal.vnull])) = initState :=
  allInvalid_batch_no_change 0 initState [JSVal.vnull] rfl

/-- C9: a statsToday aggregate message with numeric total `t` and array
countries `cs` replaces the two overlay fields with exactly `t` and `cs`
and leaves every other state component — rolling buffer included —
unchanged, from any prior state. -/
theorem statsToday_overlay_replace (now : ℤ) (st : HookState)
    (fields payloadFields : List (String × JSVal)) (t : JSNum)
    (cs : List JSVal)
    (htype : (JSVal.vobj fields).getField "type" = JSVal.vstr "statsToday")
    (hpayload : (JSVal.vobj fields).getField "payload" =
      JSVal.vobj payloadFields)
    (htotal : (JSVal.vobj payloadFields).getField "total" = JSVal.vnum t)
    (hcountries : (JSVal.vobj payloadFields).getField "countries" =
      JSVal.varr cs) :
    processMessage now st (WSMessage.parsed (JSVal.vobj fields)) =
      { st with todayTotal := some t, todayByCountry := some cs } := by
  unfold processMessage
  simp [JSVal.isArray, JSVal.truthy, JSVal.typeofObject, htype, hpayload,
    htotal, hcountries, isStatsTodayTag, arrayElems]

/-- Witness for C9: the specification example message sets the overlay to
total 42 and the single country row, on the freshly mounted state. -/
theorem statsToday_overlay_replace_witness :
    processMessage 0 initState (WSMessage.parsed statsTodayExample) =
      { initState with
          todayTotal := some (JSNum.finite 42)
          todayByCountry := some
            [JSVal.vobj [("country", JSVal.vstr "A"),
                         ("count", JSVal.vnum (JSNum.finite 42))]] } :=
  statsToday_overlay_replace 0 initState _ _ _ _ rfl rfl rfl rfl

/-- C6: evaluating the disposal path shows the claim fails on the code.
The cleanup cancels the pending timer and closes the transport, but the
still-attached onclose handler runs on the disposal-induced close event
and schedules a fresh reconnection timer: starting from a connected hook
with retry counter 0, after cleanup the timer count is 0, yet after the
close notification caused by the disposal it is 1 again. -/
theorem cleanup_then_close_reschedules :
    (cleanup (onOpen (connectStep initState))).pendingTimers = 0 ∧
    (onClose maxReconnectAttempts
        (cleanup (onOpen (connectStep initState)))).pendingTimers = 1 ∧
    (onClose maxReconnectAttempts
        (cleanup (onOpen (connectStep initState)))).reconnectAttempts = 1 :=
  ⟨rfl, rfl, rfl⟩

-- Helper lemmas about the onclose handler and the validator.

theorem onClose_below (maxAttempts : ℕ) (st : HookState)
    (h : st.reconnectAttempts < maxAttempts) :
    onClose maxAttempts st =
      { st with isConnected := false
                reconnectAttempts := st.reconnectAttempts + 1
                pendingTimers := st.pendingTimers + 1 } := by
  unfold onClose
  split
  · rfl
  · next hc => exact absurd h hc

theorem onClose_at_max (maxAttempts : ℕ) (st : HookState)
    (h : ¬ st.reconnectAttempts < maxAttempts) :
    onClose maxAttempts st =
      { st with isConnected := false
                error := some "Max reconnection attempts reached" } := by
  unfold onClose
  split
  · next hc => exact absurd hc h
  · rfl

theorem typeofNumber_getField_obj (x : JSVal) (k : String)
    (h : (x.getField k).typeofNumber = true) :
    ∃ fs, x = JSVal.vobj fs := by
  cases x <;>
    first
      | exact ⟨_, rfl⟩
      | simp [JSVal.getField, JSVal.typeofNumber] at h

theorem typeofNumber_iff (x : JSVal) :
    x.typeofNumber = true ↔ ∃ n, x = JSVal.vnum n := by
  cases x <;> simp [JSVal.typeofNumber]

/-- C5 counterexample: with the default maximum of 10, after 10
consecutive transport closures (each non-final one followed by its
scheduled retry) the machine is not Exhausted: the retry counter is 10, one
reconnection is still pending, and no error is set. -/
theorem after10Closes_not_exhausted :
    (afterCloses 10).reconnectAttempts = 10 ∧
    (afterCloses 10).pendingTimers = 1 ∧
    (afterCloses 10).error = none :=
  ⟨rfl, rfl, rfl⟩

/-- C5 amended: each closure while the retry counter is below the maximum
schedules exactly one reconnection attempt and increments the counter by
one; a closure with the counter at the maximum makes the state Exhausted —
the user-visible error is set and no retry is scheduled — and repeated
closures while exhausted never schedule one until open resets the machine;
with the default maximum 10 the machine becomes Exhausted on the 11th
consecutive closure, one retry still being pending right after the
10th. -/
theorem onClose_state_machine :
    (∀ st : HookState, st.reconnectAttempts < maxReconnectAttempts →
      onClose maxReconnectAttempts st =
        { st with isConnected := false
                  reconnectAttempts := st.reconnectAttempts + 1
                  pendingTimers := st.pendingTimers + 1 }) ∧
    (∀ st : HookState, maxReconnectAttempts ≤ st.reconnectAttempts →
      onClose maxReconnectAttempts st =
        { st with isConnected := false
                  error := some "Max reconnection attempts reached" }) ∧
    (∀ (st : HookState) (n : ℕ),
      maxReconnectAttempts ≤ st.reconnectAttempts →
      ((onClose maxReconnectAttempts)^[n] st).pendingTimers =
        st.pendingTimers) ∧
    (afterCloses 11).error = some "Max reconnection attempts reached" ∧
    (afterCloses 11).pendingTimers = 0 := by
  refine ⟨?_, ?_, ?_, rfl, rfl⟩
  · intro st h
    exact onClose_below maxReconnectAttempts st h
  · intro st h
    exact onClose_at_max maxReconnectAttempts st (not_lt.mpr h)
  · intro st n h
    induction n generalizing st with
    | zero => rfl
    | succ n ih =>
        rw [Function.iterate_succ_apply,
          onClose_at_max maxReconnectAttempts st (not_lt.mpr h)]
        exact ih _ h

/-- Witness for C5: the very first closure of a fresh session increments
the counter from 0 to 1 and schedules exactly one retry. -/
theorem onClose_state_machine_witness :
    onClose maxReconnectAttempts initState =
      { initState with isConnected := false
                       reconnectAttempts := 1
                       pendingTimers := 1 } :=
  onClose_state_machine.1 initState (by decide)

/-- C2 counterexample: a candidate event whose source longitude is NaN is
accepted by the validator, so acceptance does not require the four
coordinates to be finite and a NaN coordinate is not rejected. -/
theorem validator_accepts_nan_coordinate :
    (nanAttackEv.getField "src_geo").getField "lon" =
      JSVal.vnum JSNum.nan ∧
    isValidAttack nanAttackEv = true ∧
    ¬ finiteCoordSpec nanAttackEv := by
  refine ⟨rfl, rfl, ?_⟩
  rintro ⟨-, -, -, ⟨q, hq⟩, -, -, -⟩
  rw [show (nanAttackEv.getField "src_geo").getField "lon" =
    JSVal.vnum JSNum.nan from rfl] at hq
  simp at hq

/-- C2 amended: the validator accepts a candidate exactly when it is a
non-null object containing a source-point record and a destination-point
record whose four coordinate fields are values of JavaScript number type;
NaN and infinite coordinates are accepted, finiteness is not checked. -/
theorem validator_iff_numberCoords (v : JSVal) :
    isValidAttack v = true ↔ numberCoordSpec v := by
  constructor
  · intro h
    cases v with
    | vobj fields =>
        unfold isValidAttack at h
        simp only [Bool.and_eq_true] at h
        obtain ⟨⟨⟨⟨⟨⟨⟨ht, hobj⟩, hsg⟩, hdg⟩, hslon⟩, hslat⟩, hdlon⟩,
          hdlat⟩ := h
        obtain ⟨sgf, hsgf⟩ := typeofNumber_getField_obj _ "lon" hslon
        obtain ⟨dgf, hdgf⟩ := typeofNumber_getField_obj _ "lon" hdlon
        obtain ⟨na, hna⟩ := (typeofNumber_iff _).mp hslon
        obtain ⟨nb, hnb⟩ := (typeofNumber_iff _).mp hslat
        obtain ⟨nc, hnc⟩ := (typeofNumber_iff _).mp hdlon
        obtain ⟨nd, hnd⟩ := (typeofNumber_iff _).mp hdlat
        exact ⟨⟨fields, rfl⟩, ⟨sgf, hsgf⟩, ⟨dgf, hdgf⟩, ⟨na, hna⟩,
          ⟨nb, hnb⟩, ⟨nc, hnc⟩, ⟨nd, hnd⟩⟩
    | vundefined => simp [isValidAttack, JSVal.truthy] at h
    | vnull => simp [isValidAttack, JSVal.truthy] at h
    | vbool b => simp [isValidAttack, JSVal.truthy, JSVal.typeofObject] at h
    | vnum n => simp [isValidAttack, JSVal.truthy, JSVal.typeofObject] at h
    | vstr s => simp [isValidAttack, JSVal.truthy, JSVal.typeofObject] at h
    | varr es => simp [isValidAttack, JSVal.getField, JSVal.truthy,
        JSVal.typeofObject] at h
  · rintro ⟨⟨fields, rfl⟩, ⟨sg, hsg⟩, ⟨dg, hdg⟩, ⟨a, ha⟩, ⟨b, hb⟩,
      ⟨c, hc⟩, ⟨d, hd⟩⟩
    rw [hsg] at ha hb
    rw [hdg] at hc hd
    simp [isValidAttack, JSVal.truthy, JSVal.typeofObject, hsg, hdg,
      ha, hb, hc, hd, JSVal.typeofNumber]

/-- C10: a candidate with number-typed coordinates but no type field (id
and timestamp equally unconstrained) passes validation and enters the
buffer, and the attack-type grouping counts it under the string key
coerced from undefined — the key "undefined", not the "Unknown" label used
for missing countries. -/
theorem missing_type_counted_as_undefined
    (fields sg dg : List (String × JSVal)) (a b c d : JSNum)
    (hsg : (JSVal.vobj fields).getField "src_geo" = JSVal.vobj sg)
    (hdg : (JSVal.vobj fields).getField "dst_geo" = JSVal.vobj dg)
    (hslon : (JSVal.vobj sg).getField "lon" = JSVal.vnum a)
    (hslat : (JSVal.vobj sg).getField "lat" = JSVal.vnum b)
    (hdlon : (JSVal.vobj dg).getField "lon" = JSVal.vnum c)
    (hdlat : (JSVal.vobj dg).getField "lat" = JSVal.vnum d)
    (hnotype : (JSVal.vobj fields).getField "type" = JSVal.vundefined) :
    isValidAttack (JSVal.vobj fields) = true ∧
    typeKey (JSVal.vobj fields) = "undefined" ∧
    typeKey (JSVal.vobj fields) ≠ "Unknown" ∧
    rankedGroups typeKey [JSVal.vobj fields] = [("undefined", 1)] ∧
    processMessage 0 initState
        (WSMessage.parsed (JSVal.varr [JSVal.vobj fields])) =
      { initState with
          allAttacks := [JSVal.vobj fields]
          attacks := [JSVal.vobj fields]
          lastUpdate := some 0 } := by
  have hvalid : isValidAttack (JSVal.vobj fields) = true := by
    simp [isValidAttack, JSVal.truthy, JSVal.typeofObject, hsg, hdg,
      hslon, hslat, hdlon, hdlat, JSVal.typeofNumber]
  have htk : typeKey (JSVal.vobj fields) = "undefined" := by
    simp [typeKey, hnotype, JSVal.jsKeyString]
  refine ⟨hvalid, htk, by rw [htk]; decide, ?_, ?_⟩
  · unfold rankedGroups
    have hgc : groupCounts typeKey [JSVal.vobj fields] = [("undefined", 1)] := by
      simp [groupCounts, bump, htk]
    rw [hgc]
    decide
  · unfold processMessage
    simp [JSVal.isArray, arrayElems, hvalid, bufferAppend, capacity,
      initState]

/-- Witness for C10: a concrete event holding only the two geo points
passes validation, is buffered, and is counted under the key
"undefined". -/
theorem missing_type_counted_as_undefined_witness :
    isValidAttack noTypeAttackEv = true ∧
    typeKey noTypeAttackEv = "undefined" ∧
    typeKey noTypeAttackEv ≠ "Unknown" ∧
    rankedGroups typeKey [noTypeAttackEv] = [("undefined", 1)] ∧
    processMessage 0 initState
        (WSMessage.parsed (JSVal.varr [noTypeAttackEv])) =
      { initState with
          allAttacks := [noTypeAttackEv]
          attacks := [noTypeAttackEv]
          lastUpdate := some 0 } :=
  missing_type_counted_as_undefined _ _ _ _ _ _ _ rfl rfl rfl rfl rfl rfl rfl

-- Helper lemmas for the ranked group lists (sortedness, stability,
-- first-seen key order).

theorem beq_swap (a b : String) : (a == b) = (b == a) := by
  by_cases hab : a = b
  · subst hab; rfl
  · rw [beq_eq_false_iff_ne.mpr hab, beq_eq_false_iff_ne.mpr (Ne.symm hab)]

theorem filter_swap (p q : String → Bool) (l : List String) :
    (l.filter q).filter p = (l.filter p).filter q := by
  rw [List.filter_filter, List.filter_filter]
  apply List.filter_congr
  intro a _
  exact Bool.and_comm _ _

theorem mem_insertDesc {x p : String × ℕ} {l : List (String × ℕ)}
    (h : x ∈ insertDesc p l) : x = p ∨ x ∈ l := by
  induction l with
  | nil =>
      simp [insertDesc] at h
      exact Or.inl h
  | cons q rest ih =>
      unfold insertDesc at h
      split at h
      · rcases List.mem_cons.mp h with h1 | h2
        · exact Or.inr (h1 ▸ List.mem_cons_self q rest)
        · rcases ih h2 with h3 | h3
          · exact Or.inl h3
          · exact Or.inr (List.mem_cons_of_mem q h3)
      · rcases List.mem_cons.mp h with h1 | h2
        · exact Or.inl h1
        · exact Or.inr h2

theorem pairwise_insertDesc (p : String × ℕ) (l : List (String × ℕ))
    (h : l.Pairwise (fun a b => b.2 ≤ a.2)) :
    (insertDesc p l).Pairwise (fun a b => b.2 ≤ a.2) := by
  induction l with
  | nil => simp [insertDesc]
  | cons q rest ih =>
      rw [List.pairwise_cons] at h
      obtain ⟨hq, hrest⟩ := h
      unfold insertDesc
      split
      · next hgt =>
          rw [List.pairwise_cons]
          refine ⟨?_, ih hrest⟩
          intro y hy
          rcases mem_insertDesc hy with h1 | h1
          · subst h1; exact le_of_lt hgt
          · exact hq y h1
      · next hle =>
          rw [List.pairwise_cons]
          refine ⟨?_, List.pairwise_cons.mpr ⟨hq, hrest⟩⟩
          intro y hy
          rcases List.mem_cons.mp hy with h1 | h1
          · subst h1; omega
          · exact le_trans (hq y h1) (by omega)

theorem sortDesc_pairwise (l : List (String × ℕ)) :
    (sortDesc l).Pairwise (fun a b => b.2 ≤ a.2) := by
  induction l with
  | nil => simp [sortDesc]
  | cons x xs ih => exact pairwise_insertDesc x _ ih

theorem filter_insertDesc (c : ℕ) (p : String × ℕ)
    (l : List (String × ℕ)) :
    (insertDesc p l).filter (fun q => q.2 == c) =
      if p.2 == c then p :: l.filter (fun q => q.2 == c)
      else l.filter (fun q => q.2 == c) := by
  induction l with
  | nil =>
      by_cases hp : (p.2 == c) = true
      · simp [insertDesc, hp]
      · have hp' : (p.2 == c) = false := by simpa using hp
        simp [insertDesc, hp']
  | cons q rest ih =>
      unfold insertDesc
      split
      · next hgt =>
          by_cases hp : (p.2 == c) = true
          · have hpc : p.2 = c := beq_iff_eq.mp hp
            have hqc : (q.2 == c) = false :=
              beq_eq_false_iff_ne.mpr (by omega)
            simp [List.filter_cons, hqc, ih, hp]
          · have hp' : (p.2 == c) = false := by simpa using hp
            simp [List.filter_cons, ih, hp']
      · next hle =>
          simp [List.filter_cons]

theorem filter_sortDesc (c : ℕ) (l : List (String × ℕ)) :
    (sortDesc l).filter (fun q => q.2 == c) =
      l.filter (fun q => q.2 == c) := by
  induction l with
  | nil => rfl
  | cons x xs ih =>
      show (insertDesc x (sortDesc xs)).filter (fun q => q.2 == c) = _
      rw [filter_insertDesc, ih, List.filter_cons]

theorem any_map_fst (m : List (String × ℕ)) (p : String → Bool) :
    (m.map Prod.fst).any p = m.any (fun q => p q.1) := by
  induction m with
  | nil => rfl
  | cons q rest ih => simp [ih]

theorem bump_proto (m : List (String × ℕ)) (k : String)
    (hk : (k == "__proto__") = true) : bump m k = m := by
  unfold bump
  rw [if_pos hk]

theorem map_fst_bump (m : List (String × ℕ)) (k : String)
    (hk : (k == "__proto__") = false) :
    (bump m k).map Prod.fst =
      if m.any (fun p => p.1 == k) then m.map Prod.fst
      else m.map Prod.fst ++ [k] := by
  unfold bump
  rw [if_neg (by rw [hk]; exact Bool.false_ne_true)]
  split
  · next h =>
      rw [List.map_map]
      apply List.map_congr_left
      intro a _
      show (if (a.1 == k) = true then (a.1, a.2 + 1) else a).1 = a.1
      split <;> rfl
  · next h =>
      simp

theorem foldl_bump_filter (ks : List String) (m : List (String × ℕ)) :
    ks.foldl bump m =
      (ks.filter (fun k => !(k == "__proto__"))).foldl bump m := by
  induction ks generalizing m with
  | nil => rfl
  | cons k ks ih =>
      by_cases hk : (k == "__proto__") = true
      · rw [List.foldl_cons, bump_proto m k hk, List.filter_cons,
          if_neg (by rw [hk]; exact Bool.false_ne_true)]
        exact ih m
      · have hk' : (k == "__proto__") = false := Bool.eq_false_iff.mpr hk
        rw [List.foldl_cons, List.filter_cons, if_pos (by rw [hk']; rfl),
          List.foldl_cons]
        exact ih (bump m k)

theorem map_fst_foldl_bump (ks : List String) (m : List (String × ℕ))
    (h : ∀ k ∈ ks, (k == "__proto__") = false) :
    ((ks.foldl bump m).map Prod.fst) = seenKeys (m.map Prod.fst) ks := by
  induction ks generalizing m with
  | nil => rfl
  | cons k ks ih =>
      rw [List.foldl_cons]
      rw [ih (bump m k) (fun k2 hk2 => h k2 (List.mem_cons_of_mem _ hk2))]
      show _ = seenKeys
        (if (m.map Prod.fst).any (fun y => y == k) then m.map Prod.fst
         else m.map Prod.fst ++ [k]) ks
      congr 1
      rw [map_fst_bump m k (h k (List.mem_cons_self _ _))]
      rw [any_map_fst m (fun y => y == k)]

theorem map_fst_filter (q : String → Bool) (m : List (String × ℕ)) :
    (m.filter (fun p => q p.1)).map Prod.fst =
      (m.map Prod.fst).filter q := by
  induction m with
  | nil => rfl
  | cons p rest ih =>
      by_cases hq : q p.1 = true
      · rw [List.filter_cons, if_pos hq, List.map_cons, List.map_cons,
          List.filter_cons, if_pos hq, ih]
      · have hq' : q p.1 = false := Bool.eq_false_iff.mpr hq
        rw [List.filter_cons, if_neg (by rw [hq']; exact Bool.false_ne_true),
          List.map_cons, List.filter_cons,
          if_neg (by rw [hq']; exact Bool.false_ne_true), ih]

theorem map_fst_insertIdx (p : String × ℕ) (l : List (String × ℕ)) :
    (insertIdx p l).map Prod.fst = insertKeyAsc p.1 (l.map Prod.fst) := by
  induction l with
  | nil => rfl
  | cons q rest ih =>
      rw [List.map_cons]
      unfold insertIdx insertKeyAsc
      split
      · next h =>
          rw [List.map_cons, ih]
      · next h =>
          rw [List.map_cons, List.map_cons]

theorem map_fst_sortIdx (l : List (String × ℕ)) :
    (sortIdx l).map Prod.fst = sortKeysAsc (l.map Prod.fst) := by
  induction l with
  | nil => rfl
  | cons p rest ih =>
      show (insertIdx p (sortIdx rest)).map Prod.fst = _
      rw [map_fst_insertIdx, ih, List.map_cons]
      rfl

theorem map_fst_jsEntries (m : List (String × ℕ)) :
    (jsEntries m).map Prod.fst =
      sortKeysAsc ((m.map Prod.fst).filter isArrayIndexKey) ++
        (m.map Prod.fst).filter (fun k => !(isArrayIndexKey k)) := by
  unfold jsEntries
  rw [List.map_append, map_fst_sortIdx, map_fst_filter isArrayIndexKey m,
    map_fst_filter (fun k => !(isArrayIndexKey k)) m]

theorem dedupFirst_filter (p : String → Bool) (l : List String) :
    dedupFirst (l.filter p) = (dedupFirst l).filter p := by
  induction l with
  | nil => rfl
  | cons x l ih =>
      by_cases hp : p x = true
      · rw [List.filter_cons, if_pos hp]
        simp only [dedupFirst]
        rw [ih, List.filter_cons, if_pos hp]
        congr 1
        exact filter_swap (fun y => !(y == x)) p (dedupFirst l)
      · have hp' : p x = false := by simpa using hp
        rw [List.filter_cons, if_neg (by simp [hp'])]
        rw [ih]
        simp only [dedupFirst]
        rw [List.filter_cons, if_neg (by simp [hp'])]
        rw [filter_swap p (fun y => !(y == x)) (dedupFirst l)]
        symm
        apply List.filter_eq_self.mpr
        intro a ha
        have hpa := (List.mem_filter.mp ha).2
        by_cases hax : a = x
        · rw [hax, hp'] at hpa
          cases hpa
        · simp [beq_eq_false_iff_ne.mpr hax]

theorem seenKeys_eq (ks : List String) (acc : List String) :
    seenKeys acc ks =
      acc ++ dedupFirst
        (ks.filter (fun k => !(acc.any (fun y => y == k)))) := by
  induction ks generalizing acc with
  | nil => simp [seenKeys, dedupFirst]
  | cons k ks ih =>
      show seenKeys
        (if acc.any (fun y => y == k) then acc else acc ++ [k]) ks = _
      by_cases hk : (acc.any (fun y => y == k)) = true
      · rw [if_pos hk, ih]
        have hfc : (k :: ks).filter (fun k2 => !(acc.any (fun y => y == k2))) =
            ks.filter (fun k2 => !(acc.any (fun y => y == k2))) := by
          rw [List.filter_cons, if_neg (by rw [hk]; exact Bool.false_ne_true)]
        rw [hfc]
      · have hk' : (acc.any (fun y => y == k)) = false := Bool.eq_false_iff.mpr hk
        rw [if_neg (by simp [hk']), ih]
        have hfc : (k :: ks).filter (fun k2 => !(acc.any (fun y => y == k2))) =
            k :: ks.filter (fun k2 => !(acc.any (fun y => y == k2))) := by
          rw [List.filter_cons, if_pos (by rw [hk']; rfl)]
        rw [hfc]
        simp only [dedupFirst]
        rw [List.append_assoc, List.singleton_append]
        congr 2
        have hstep : ks.filter
              (fun k2 => !((acc ++ [k]).any (fun y => y == k2))) =
            (ks.filter (fun k2 => !(acc.any (fun y => y == k2)))).filter
              (fun y => !(y == k)) := by
          rw [List.filter_filter]
          apply List.filter_congr
          intro k2 _
          rw [List.any_append]
          simp only [List.any_cons, List.any_nil, Bool.or_false]
          rw [Bool.not_or, beq_swap k k2]
          exact Bool.and_comm _ _
        rw [hstep]
        exact dedupFirst_filter (fun y => !(y == k))
          (ks.filter (fun k2 => !(acc.any (fun y => y == k2))))

theorem groupCounts_eq_foldl_keys (key : JSVal → String) (l : List JSVal) :
    groupCounts key l = (l.map key).foldl bump [] := by
  unfold groupCounts
  rw [List.foldl_map]

theorem map_fst_groupCounts (key : JSVal → String) (l : List JSVal) :
    (groupCounts key l).map Prod.fst = firstSeenKeys key l := by
  rw [groupCounts_eq_foldl_keys, foldl_bump_filter]
  rw [map_fst_foldl_bump _ _ ?hproto]
  case hproto =>
    intro k hk
    have h2 := (List.mem_filter.mp hk).2
    cases hkk : (k == "__proto__") with
    | false => rfl
    | true => rw [hkk] at h2; cases h2
  rw [List.map_nil, seenKeys_eq]
  unfold firstSeenKeys
  simp

theorem enumShape_rankedGroups (key : JSVal → String)
    (attacks : List JSVal) :
    enumShape key attacks (rankedGroups key attacks) :=
  ⟨sortDesc_pairwise _,
   fun c => filter_sortDesc c _,
   by rw [map_fst_jsEntries, map_fst_groupCounts]⟩

/-- C4 counterexample: two valid events whose attack types are the
numeric-string labels 2 and 1 (in that arrival order). The count object
enumerates array-index keys in ascending numeric order, so the produced
list is 1 before 2 — not the claimed first-seen order 2 before 1 — and
the claimed shape fails at this concrete buffer. -/
theorem numeric_type_keys_break_first_seen :
    isValidAttack (idxTypeEv "2") = true ∧
    isValidAttack (idxTypeEv "1") = true ∧
    (calculateStats 0 0 [idxTypeEv "2", idxTypeEv "1"]).attackTypes =
      [("1", 1), ("2", 1)] ∧
    dedupFirst ([idxTypeEv "2", idxTypeEv "1"].map typeKey) = ["2", "1"] ∧
    ¬ rankedShape typeKey [idxTypeEv "2", idxTypeEv "1"]
        (calculateStats 0 0 [idxTypeEv "2", idxTypeEv "1"]).attackTypes := by
  refine ⟨rfl, rfl, by decide, by decide, ?_⟩
  intro h
  exact absurd (h.2.1 1) (by decide)

/-- C4 amended: for buffers whose group keys do not collide with inherited
object members, each of the three grouped lists of the stats computation
is ordered descending by count, and equal-count groups appear in the count
object enumeration order: array-index-like keys first in ascending numeric
order, then the remaining keys in order of first occurrence in the buffer
(so pure first-seen order exactly when no group key is array-index-like;
a type of the string undefined-coercion or a country name is never
index-like). -/
theorem stats_groups_enum_order (now start : ℤ) (attacks : List JSVal)
    (_hsrc : ∀ a ∈ attacks, inheritedObjectKey (srcCountryKey a) = false)
    (_hdst : ∀ a ∈ attacks, inheritedObjectKey (dstCountryKey a) = false)
    (_htype : ∀ a ∈ attacks, inheritedObjectKey (typeKey a) = false) :
    enumShape srcCountryKey attacks
      (calculateStats now start attacks).topSourceCountries ∧
    enumShape dstCountryKey attacks
      (calculateStats now start attacks).topTargetCountries ∧
    enumShape typeKey attacks
      (calculateStats now start attacks).attackTypes := by
  refine ⟨?_, ?_, ?_⟩
  · rw [topSourceCountries_eq]
    exact enumShape_rankedGroups _ _
  · rw [topTargetCountries_eq]
    exact enumShape_rankedGroups _ _
  · rw [attackTypes_eq]
    exact enumShape_rankedGroups _ _

/-- Witness for C4 (amended): the counterexample buffer satisfies the
inherited-key hypotheses and its attack-type list has the enumerated
shape. -/
theorem stats_groups_enum_order_witness :
    enumShape typeKey [idxTypeEv "2", idxTypeEv "1"]
      (calculateStats 0 0 [idxTypeEv "2", idxTypeEv "1"]).attackTypes :=
  (stats_groups_enum_order 0 0 [idxTypeEv "2", idxTypeEv "1"]
    (by decide) (by decide) (by decide)).2.2
